import Mathlib

set_option autoImplicit false

/-!
Verification development for the udhos/oauth2 client-credentials library.

The embedding follows the Go sources:
- clientcredentials/token.go        : Token, IsValid, Expire, SetExpiration, JSON round trip
- clientcredentials/clientcredentials.go : New, Do, getToken, fetchTokenRaw, parseToken
- clientcredentials/cache.go        : memory cache
- cache/filecache/cache.go          : file-backed cache
- cache/rediscache/cache.go         : redis-backed cache
- cache/errorcache/cache.go         : always-failing cache

Modelling conventions:
- Instants and durations are integers (nanoseconds), mirroring the int64
  representation of Go time.Duration. The Go zero time value (the sentinel the
  code stores on forced expiry) is modelled as instant 0; realistic clock
  readings are nonnegative.
- JSON numbers are modelled as exact integers. Every numeric literal exercised
  by the specification (300, 300.0) is integer valued, so the float64 detour
  that encoding/json takes in Go is value-preserving on the modelled inputs.
  Non-integral and exponent literals are outside the model.
- Fallible Go calls returning (value, error) pairs are modelled as pairs of the
  value and an optional error string, preserving the Go convention that a value
  is returned even alongside a non-nil error.
-/

namespace OAuth2

/-- One second expressed in the duration unit (nanoseconds), as Go time.Second. -/
def second : Int := 1000000000

/-- The Go zero time value, the constant `expired` of clientcredentials/token.go. -/
def zeroTime : Int := 0

/-- Token from clientcredentials/token.go: value, deadline, expirable. -/
structure Token where
  value : String
  deadline : Int
  expirable : Bool
deriving Repr, DecidableEq

/-- IsValid from clientcredentials/token.go:
`valid := !t.Expirable || t.Deadline.After(now.Add(softExpire))`. -/
def Token.isValid (t : Token) (now : Int) (softExpire : Int) : Bool :=
  !t.expirable || decide (now + softExpire < t.deadline)

/-- Expire from clientcredentials/token.go: sets Expirable and the zero-time deadline. -/
def Token.expireTok (t : Token) : Token :=
  { t with expirable := true, deadline := zeroTime }

/-- SetExpiration from clientcredentials/token.go. -/
def Token.setExpiration (t : Token) (deadline : Int) : Token :=
  { t with expirable := true, deadline := deadline }

/-- The zero value of the Go Token struct. -/
def zeroToken : Token := { value := "", deadline := zeroTime, expirable := false }

/-! ### JSON values, as produced by encoding/json Unmarshal into interface values -/

/-- Generic decoded JSON value: the shape json.Unmarshal produces for an
interface target (map, slice, string, number, bool, nil). -/
inductive Json where
  | obj (fields : List (String × Json))
  | arr (items : List Json)
  | str (s : String)
  | num (n : Int)
  | bool (b : Bool)
  | null
deriving Repr

/-- Tokens of the JSON grammar used while scanning input bytes. -/
inductive JTok where
  | lbrace
  | rbrace
  | lbrack
  | rbrack
  | colon
  | comma
  | jstr (s : String)
  | jnum (n : Int)
  | jbool (b : Bool)
  | jnull
deriving Repr, DecidableEq

/-- Escape sequences of JSON string literals handled by the model; the hex and
control escapes do not occur in the payloads of interest. -/
def escChar (c : Char) : Option Char :=
  if c = '"' ∨ c = '\\' ∨ c = '/' then some c
  else if c = 'n' then some '\n'
  else if c = 't' then some '\t'
  else if c = 'r' then some '\r'
  else none

/-- Reads the characters of a JSON string literal after the opening quote,
returning the content and the rest of the input. -/
def readStringChars : List Char → Option (List Char × List Char)
  | [] => none
  | '"' :: rest => some ([], rest)
  | '\\' :: rest =>
    match rest with
    | [] => none
    | e :: rest2 =>
      match escChar e with
      | none => none
      | some ch =>
        match readStringChars rest2 with
        | none => none
        | some (s, r) => some (ch :: s, r)
  | c :: rest =>
    match readStringChars rest with
    | none => none
    | some (s, r) => some (c :: s, r)

/-- Splits a maximal run of decimal digits off the input. -/
def readDigits : List Char → List Char × List Char
  | [] => ([], [])
  | c :: rest =>
    if c.isDigit then
      match readDigits rest with
      | (ds, r) => (c :: ds, r)
    else ([], c :: rest)

/-- Value of a digit run, most significant digit first. -/
def digitsValAux (acc : Nat) : List Char → Nat
  | [] => acc
  | c :: rest => digitsValAux (acc * 10 + (c.toNat - 48)) rest

/-- Scanner for JSON input, fuel-based; consumes at least one character per step. -/
def jsonLex : Nat → List Char → Except String (List JTok)
  | 0, _ => .error "lexing fuel exhausted"
  | _, [] => .ok []
  | fuel + 1, input =>
    match input with
    | [] => .ok []
    | ' ' :: rest => jsonLex fuel rest
    | '\t' :: rest => jsonLex fuel rest
    | '\n' :: rest => jsonLex fuel rest
    | '\r' :: rest => jsonLex fuel rest
    | '\x7b' :: rest => (jsonLex fuel rest).map (fun ts => JTok.lbrace :: ts)
    | '\x7d' :: rest => (jsonLex fuel rest).map (fun ts => JTok.rbrace :: ts)
    | '[' :: rest => (jsonLex fuel rest).map (fun ts => JTok.lbrack :: ts)
    | ']' :: rest => (jsonLex fuel rest).map (fun ts => JTok.rbrack :: ts)
    | ':' :: rest => (jsonLex fuel rest).map (fun ts => JTok.colon :: ts)
    | ',' :: rest => (jsonLex fuel rest).map (fun ts => JTok.comma :: ts)
    | '"' :: rest =>
      match readStringChars rest with
      | none => .error "unterminated string literal"
      | some (s, r) => (jsonLex fuel r).map (fun ts => JTok.jstr (String.mk s) :: ts)
    | 't' :: 'r' :: 'u' :: 'e' :: rest =>
      (jsonLex fuel rest).map (fun ts => JTok.jbool true :: ts)
    | 'f' :: 'a' :: 'l' :: 's' :: 'e' :: rest =>
      (jsonLex fuel rest).map (fun ts => JTok.jbool false :: ts)
    | 'n' :: 'u' :: 'l' :: 'l' :: rest =>
      (jsonLex fuel rest).map (fun ts => JTok.jnull :: ts)
    | c :: rest =>
      if c = '-' ∨ c.isDigit then
        let signed : Bool := c = '-'
        let body : List Char := if signed then rest else c :: rest
        match readDigits body with
        | ([], _) => .error "invalid character in number"
        | (ds, r1) =>
          let intPart : Int := Int.ofNat (digitsValAux 0 ds)
          let n : Int := if signed then -intPart else intPart
          match r1 with
          | '.' :: r2 =>
            match readDigits r2 with
            | ([], _) => .error "invalid number"
            | (fs, r3) =>
              if fs.all (fun d => d = '0') then
                (jsonLex fuel r3).map (fun ts => JTok.jnum n :: ts)
              else .error "non-integral number outside model"
          | _ => (jsonLex fuel r1).map (fun ts => JTok.jnum n :: ts)
      else .error "invalid character in JSON input"

/-- Parses one JSON value from a token stream, fuel-based recursive descent.
Object and array continuation is handled by re-entering with a reconstructed
opening token, which keeps the recursion structural on the fuel argument. -/
def jsonParseVal : Nat → List JTok → Except String (Json × List JTok)
  | 0, _ => .error "parsing fuel exhausted"
  | _, [] => .error "unexpected end of JSON input"
  | fuel + 1, tok :: rest =>
    match tok with
    | .jstr s => .ok (.str s, rest)
    | .jnum n => .ok (.num n, rest)
    | .jbool b => .ok (.bool b, rest)
    | .jnull => .ok (.null, rest)
    | .lbrace =>
      match rest with
      | .rbrace :: r => .ok (.obj [], r)
      | .jstr k :: .colon :: r =>
        match jsonParseVal fuel r with
        | .error e => .error e
        | .ok (v, r2) =>
          match r2 with
          | .rbrace :: r3 => .ok (.obj [(k, v)], r3)
          | .comma :: .jstr k2 :: r3 =>
            match jsonParseVal fuel (JTok.lbrace :: JTok.jstr k2 :: r3) with
            | .ok (.obj fs, r4) => .ok (.obj ((k, v) :: fs), r4)
            | .ok _ => .error "object continuation returned a non-object"
            | .error e => .error e
          | _ => .error "expected comma or closing brace in object"
      | _ => .error "expected string key in object"
    | .lbrack =>
      match rest with
      | .rbrack :: r => .ok (.arr [], r)
      | _ =>
        match jsonParseVal fuel rest with
        | .error e => .error e
        | .ok (v, r2) =>
          match r2 with
          | .rbrack :: r3 => .ok (.arr [v], r3)
          | .comma :: .rbrack :: _ => .error "trailing comma in array"
          | .comma :: r3 =>
            match jsonParseVal fuel (JTok.lbrack :: r3) with
            | .ok (.arr vs, r4) => .ok (.arr (v :: vs), r4)
            | .ok _ => .error "array continuation returned a non-array"
            | .error e => .error e
          | _ => .error "expected comma or closing bracket in array"
    | _ => .error "unexpected token"

/-- Decode of a whole JSON document, as json.Unmarshal: one value, no trailing input. -/
def jsonDecode (s : String) : Except String Json :=
  match jsonLex (s.length + 1) s.data with
  | .error e => .error e
  | .ok toks =>
    match jsonParseVal (toks.length + 1) toks with
    | .error e => .error e
    | .ok (v, []) => .ok v
    | .ok (_, _ :: _) => .error "invalid character after top-level value"

/-- Lookup in a decoded object with the Go map semantics: for a duplicated key
the last occurrence wins. -/
def objGet : List (String × Json) → String → Option Json
  | [], _ => none
  | (k, v) :: rest, key =>
    match objGet rest key with
    | some v2 => some v2
    | none => if k = key then some v else none

/-- Unmarshal of a payload into a generic string-keyed map, as the
`map[string]interface` target of parseToken: the top-level value must be an object. -/
def jsonUnmarshalMap (s : String) : Except String (List (String × Json)) :=
  match jsonDecode s with
  | .error e => .error e
  | .ok (.obj fields) => .ok fields
  | .ok _ => .error "cannot unmarshal non-object into map"

/-- strconv.Atoi: optional sign followed by a nonempty digit run.
The int64 overflow cutoff is not modelled; the inputs of interest are small. -/
def digitsToNat : List Char → Option Nat
  | [] => none
  | l =>
    if l.all Char.isDigit then some (digitsValAux 0 l) else none

/-- Atoi over strings, the conversion used for a string-typed expires_in field. -/
def atoi (s : String) : Option Int :=
  match s.data with
  | '+' :: rest => (digitsToNat rest).map Int.ofNat
  | '-' :: rest => (digitsToNat rest).map (fun n => -(n : Int))
  | l => (digitsToNat l).map Int.ofNat

/-- tokenInfo from clientcredentials/clientcredentials.go: access token and
expiry duration. -/
structure TokenInfo where
  accessToken : String
  expiresIn : Int
deriving Repr, DecidableEq

/-- parseToken from clientcredentials/clientcredentials.go. The float64 case of
the Go type switch covers every JSON number; numbers are modelled as exact
integers (see the header notes). -/
def parseToken (buf : String) : Except String TokenInfo :=
  match jsonUnmarshalMap buf with
  | .error e => .error e
  | .ok data =>
    match objGet data "access_token" with
    | none => .error "missing access_token field in token response"
    | some accessToken =>
      match accessToken with
      | .str tokenStr =>
        if tokenStr = "" then .error "empty access_token in token response"
        else
          match objGet data "expires_in" with
          | none => .ok { accessToken := tokenStr, expiresIn := 0 }
          | some (.num n) => .ok { accessToken := tokenStr, expiresIn := second * n }
          | some (.str s) =>
            match atoi s with
            | some exp => .ok { accessToken := tokenStr, expiresIn := second * exp }
            | none => .error "error converting expires_in field from string to int"
          | some _ => .error "unexpected type for expires_in field in token response"
      | _ => .error "non-string value for access_token field in token response"

/-- Reports whether a parse outcome is an error. -/
def isParseErr : Except String TokenInfo → Bool
  | .error _ => true
  | .ok _ => false

/-! ### Token serialization (clientcredentials/token.go)

ExportJSON and NewTokenFromJSON are json.Marshal and json.Unmarshal on the
Token struct with tags value, deadline, expirable. The embedding works at the
level of decoded JSON values; the textual layer of encoding/json is the
external collaborator. The RFC 3339 string that Go writes for the deadline is
an injective exact encoding of the instant and is abstracted as a numeric
field. -/

/-- ExportJSON from clientcredentials/token.go, at the JSON value level. -/
def Token.exportJSON (t : Token) : Json :=
  .obj [("value", .str t.value), ("deadline", .num t.deadline),
        ("expirable", .bool t.expirable)]

/-- NewTokenFromJSON from clientcredentials/token.go: json.Unmarshal into the
Token struct. A missing field keeps the zero value, an extra field is ignored,
a wrongly typed field is an error. -/
def newTokenFromJSON (j : Json) : Except String Token :=
  match j with
  | .obj fields =>
    match (match objGet fields "value" with
           | none => Except.ok ""
           | some (.str s) => Except.ok s
           | some _ => Except.error "cannot unmarshal value field") with
    | .error e => .error e
    | .ok v =>
      match (match objGet fields "deadline" with
             | none => Except.ok zeroTime
             | some (.num n) => Except.ok n
             | some _ => Except.error "cannot unmarshal deadline field") with
      | .error e => .error e
      | .ok d =>
        match (match objGet fields "expirable" with
               | none => Except.ok false
               | some (.bool b) => Except.ok b
               | some _ => Except.error "cannot unmarshal expirable field") with
        | .error e => .error e
        | .ok ex => .ok { value := v, deadline := d, expirable := ex }
  | _ => .error "cannot unmarshal non-object into Token"

/-! ### Cache backends

Each backend is modelled by its state type together with the three operations
of the TokenCache interface. Go returns (Token, error) pairs; the model keeps
both components. -/

namespace MemoryCache

/-- Get of the memory cache (clientcredentials/cache.go): the stored token, never fails. -/
def get (s : Token) : Token × Option String := (s, none)

/-- Put of the memory cache: overwrite the slot, never fails. -/
def put (_ : Token) (t : Token) : Token × Option String := (t, none)

/-- Expire of the memory cache: expire the stored token in place, never fails. -/
def expire (s : Token) : Token × Option String := (s.expireTok, none)

end MemoryCache

namespace FileCache

/-- State of the file cache (cache/filecache/cache.go): the serialized token in
the file, or none when the file does not exist. Operating-system write failures
are not modelled; read of a missing file fails as in Go. -/
def read (s : Option Json) : Token × Option String :=
  match s with
  | none => (zeroToken, some "open: no such file or directory")
  | some j =>
    match newTokenFromJSON j with
    | .error e => (zeroToken, some e)
    | .ok t => (t, none)

/-- Get of the file cache: read and decode the file. -/
def get (s : Option Json) : Token × Option String := read s

/-- Put of the file cache: write the serialized token. -/
def put (_ : Option Json) (t : Token) : Option Json × Option String :=
  (some t.exportJSON, none)

/-- Expire of the file cache: read, expire, write back; a read failure is
returned and leaves the file unchanged. -/
def expire (s : Option Json) : Option Json × Option String :=
  match read s with
  | (t, none) => (some (Token.exportJSON t.expireTok), none)
  | (_, some e) => (s, some e)

end FileCache

namespace RedisCache

/-- State of the redis cache (cache/rediscache/cache.go): the value stored at
the single key, or none when the key is absent. The remote TTL that Put sets is
not modelled; no claim depends on it. -/
def get (s : Option Json) : Token × Option String :=
  match s with
  | none => (zeroToken, some "redis cache error: key not found")
  | some j =>
    match newTokenFromJSON j with
    | .error e => (zeroToken, some e)
    | .ok t => (t, none)

/-- Put of the redis cache: set the key to the serialized token. -/
def put (_ : Option Json) (t : Token) : Option Json × Option String :=
  (some t.exportJSON, none)

/-- Expire of the redis cache: Get then Put; a Get failure is returned and
leaves the key unchanged. -/
def expire (s : Option Json) : Option Json × Option String :=
  match get s with
  | (t, none) => put s t.expireTok
  | (_, some e) => (s, some e)

end RedisCache

namespace ErrorCache

/-- Error message of the always-failing cache (cache/errorcache/cache.go). -/
def errAlways : String := "errorcache error always"

/-- Get of the error cache: the zero token together with the constant error. -/
def get (_ : Unit) : Token × Option String := (zeroToken, some errAlways)

/-- Put of the error cache: always fails. -/
def put (_ : Unit) (_ : Token) : Unit × Option String := ((), some errAlways)

/-- Expire of the error cache: always fails. -/
def expire (_ : Unit) : Unit × Option String := ((), some errAlways)

end ErrorCache

/-! ### Client construction and token acquisition
(clientcredentials/clientcredentials.go) -/

/-- The slice of Options that the modelled control flow reads. The injected
HTTP capability, cache backend, time source and logger are passed to the
modelled functions as explicit arguments. -/
structure Options where
  softExpireInSeconds : Int
deriving Repr, DecidableEq

/-- The soft-expire normalization switch at the head of New: 0 selects the
10-second default, -1 disables soft expiry, anything else is kept. -/
def normalizeSoftExpire (s : Int) : Int :=
  if s = 0 then 10 else if s = -1 then 0 else s

/-- New from clientcredentials/clientcredentials.go, restricted to the
configuration normalization it performs; the stored options are the ones every
later call reads. -/
def new (opts : Options) : Options :=
  { opts with softExpireInSeconds := normalizeSoftExpire opts.softExpireInSeconds }

/-- getToken from clientcredentials/clientcredentials.go, with the cache read
and the fetch outcome injected: a failed cache read is logged and falls through
to the fetch; a cached token is returned when IsValid accepts it under the
configured soft-expire duration; otherwise the fetch outcome is returned. -/
def getToken (c : Options) (cacheGet : Token × Option String) (now : Int)
    (fetchResult : Except String String) : Except String String :=
  match cacheGet.2 with
  | some _ => fetchResult
  | none =>
    let softExpire := c.softExpireInSeconds * second
    if cacheGet.1.isValid now softExpire then .ok cacheGet.1.value
    else fetchResult

/-- HTTP response as seen by the client: status code and body bytes. -/
structure HttpResponse where
  statusCode : Int
  body : String
deriving Repr, DecidableEq

/-- Outcome of one HTTP exchange. The injected HTTP doer returns a response
pointer and an error; a nil error guarantees a non-nil response, while an
error may come with or without a response. -/
inductive SendResult where
  | success (resp : HttpResponse)
  | failure (resp : Option HttpResponse) (err : String)
deriving Repr, DecidableEq

/-- Observable side effects of the client control flow. -/
inductive Action where
  | sendResource
  | cacheExpire
  | cachePut (t : Token)
  | logError (msg : String)
deriving Repr, DecidableEq

/-- Do from clientcredentials/clientcredentials.go, with the token acquisition
outcome, the resource exchange outcome and the cache Expire outcome injected.
Returns the (response, error) pair Do returns, with the trace of side effects:
the resource send, the cache expiry on status 401 and the log line when that
expiry fails. -/
def clientDo (tokenResult : Except String String) (sr : SendResult)
    (expireOutcome : Option String) :
    (Option HttpResponse × Option String) × List Action :=
  match tokenResult with
  | .error e => ((none, some e), [])
  | .ok _ =>
    match sr with
    | .failure resp e => ((resp, some e), [.sendResource])
    | .success resp =>
      if resp.statusCode = 401 then
        match expireOutcome with
        | some e =>
          ((some resp, none),
           [.sendResource, .cacheExpire, .logError ("cache expire error: " ++ e)])
        | none => ((some resp, none), [.sendResource, .cacheExpire])
      else ((some resp, none), [.sendResource])

/-- fetchTokenRaw from clientcredentials/clientcredentials.go, with the token
endpoint exchange and the cache Put outcome injected: transport errors and
non-200 statuses are fatal for the fetch, the body is parsed with parseToken,
the new token gets a deadline when expires_in was present and nonzero, and a
Put failure is logged while the fresh token value is still returned. -/
def fetchTokenRaw (doResult : SendResult) (now : Int) (putOutcome : Option String) :
    Except String String × List Action :=
  match doResult with
  | .failure _ e => (.error e, [])
  | .success resp =>
    if resp.statusCode ≠ 200 then
      (.error ("status:" ++ toString resp.statusCode ++ " body:" ++ resp.body), [])
    else
      match parseToken resp.body with
      | .error e => (.error ("parse token: " ++ e), [])
      | .ok info =>
        let base : Token := { value := info.accessToken, deadline := zeroTime,
                              expirable := false }
        let newToken : Token :=
          if info.expiresIn ≠ 0 then base.setExpiration (now + info.expiresIn)
          else base
        match putOutcome with
        | some e =>
          (.ok newToken.value,
           [.cachePut newToken, .logError ("cache put error: " ++ e)])
        | none => (.ok newToken.value, [.cachePut newToken])

/-! ### Fetch coordination (singleflight)

Modelled from the spec: the request de-duplication of fetchToken is provided by
the external singleflight library, whose code is not part of this repository.
The contract in section 4.4 of the spec is modelled as an interleaving event
semantics over the single logical key: a caller entering group.Do either starts
the physical fetch (when none is in flight) or joins the waiters of the
in-flight one; when the physical fetch resolves, every joined caller receives
its result and the marker is cleared. A caller of a client with
DisableSingleFlight set bypasses the group and runs its own physical fetch. -/

/-- Events of the fetch coordination model. -/
inductive SFEvent where
  | arrive (id : Nat)
  | complete (r : Except String String)
  | arriveDirect (id : Nat) (r : Except String String)
deriving Repr

/-- State of the fetch coordination model: the waiters of the in-flight
physical fetch (none when no fetch is outstanding), the number of physical
fetches started, and the results delivered to finished callers. -/
structure SFState where
  inFlight : Option (List Nat)
  fetchesStarted : Nat
  delivered : List (Nat × Except String String)
deriving Repr

/-- Initial coordination state: no fetch in flight, nothing delivered. -/
def sfInit : SFState := { inFlight := none, fetchesStarted := 0, delivered := [] }

/-- Modelled from the spec: one step of the fetch coordinator (section 4.4),
covering group.Do entry, physical fetch completion, and the direct path taken
when DisableSingleFlight is set. -/
def sfStep (s : SFState) : SFEvent → SFState
  | .arrive i =>
    match s.inFlight with
    | none => { s with inFlight := some [i], fetchesStarted := s.fetchesStarted + 1 }
    | some l => { s with inFlight := some (l ++ [i]) }
  | .complete r =>
    match s.inFlight with
    | none => s
    | some l =>
      { s with inFlight := none,
               delivered := s.delivered ++ l.map (fun i => (i, r)) }
  | .arriveDirect i r =>
    { s with fetchesStarted := s.fetchesStarted + 1,
             delivered := s.delivered ++ [(i, r)] }

/-- Runs a sequence of coordination events from a state. -/
def sfRun (s : SFState) (es : List SFEvent) : SFState := es.foldl sfStep s

/-! ### Shared lemmas -/

/-- Deserializing a serialized token restores it exactly. -/
theorem newTokenFromJSON_exportJSON (t : Token) :
    newTokenFromJSON t.exportJSON = .ok t := by
  cases t
  rfl

/-! ### Claims -/

/-- C1: parseToken, applied to a byte payload, follows the response table of
the spec: empty input, a missing access_token, an empty access_token, a
non-string access_token, a non-numeric expires_in string and a boolean, object,
array or null expires_in are errors; a plain access_token succeeds with zero
expiry; expires_in given as integer 300, float 300.0 or string "300" each give
a 300-second expiry. -/
theorem parseToken_response_table :
    isParseErr (parseToken "") = true
  ∧ isParseErr (parseToken "\x7b\x7d") = true
  ∧ isParseErr (parseToken "\x7b\"access_token\":\"\"\x7d") = true
  ∧ parseToken "\x7b\"access_token\":\"abc\"\x7d" =
      .ok { accessToken := "abc", expiresIn := 0 }
  ∧ parseToken "\x7b\"access_token\":\"abc\",\"expires_in\":300\x7d" =
      .ok { accessToken := "abc", expiresIn := 300 * second }
  ∧ parseToken "\x7b\"access_token\":\"abc\",\"expires_in\":300.0\x7d" =
      .ok { accessToken := "abc", expiresIn := 300 * second }
  ∧ parseToken "\x7b\"access_token\":\"abc\",\"expires_in\":\"300\"\x7d" =
      .ok { accessToken := "abc", expiresIn := 300 * second }
  ∧ isParseErr (parseToken "\x7b\"access_token\":\"abc\",\"expires_in\":\"bad\"\x7d") = true
  ∧ isParseErr (parseToken "\x7b\"access_token\":123\x7d") = true
  ∧ isParseErr (parseToken "\x7b\"access_token\":\"abc\",\"expires_in\":true\x7d") = true
  ∧ isParseErr (parseToken "\x7b\"access_token\":\"abc\",\"expires_in\":\x7b\x7d\x7d") = true
  ∧ isParseErr (parseToken "\x7b\"access_token\":\"abc\",\"expires_in\":[]\x7d") = true
  ∧ isParseErr (parseToken "\x7b\"access_token\":\"abc\",\"expires_in\":null\x7d") = true :=
  ⟨rfl, rfl, rfl, rfl, rfl, rfl, rfl, rfl, rfl, rfl, rfl, rfl, rfl⟩

/-- C2: IsValid returns true unconditionally when the token is not expirable,
and otherwise returns true exactly when the deadline lies strictly after
now plus the toleration. -/
theorem isValid_spec (t : Token) (now tol : Int) :
    (t.expirable = false → t.isValid now tol = true) ∧
    (t.expirable = true → (t.isValid now tol = true ↔ now + tol < t.deadline)) := by
  constructor <;> intro h <;> simp [Token.isValid, h]

/-- Witness for C2 at concrete tokens. -/
theorem isValid_spec_witness :
    (Token.mk "a" 5 false).isValid 100 0 = true ∧
    ((Token.mk "a" 5 true).isValid 1 2 = true ↔ (1 : Int) + 2 < 5) :=
  ⟨(isValid_spec (Token.mk "a" 5 false) 100 0).1 rfl,
   (isValid_spec (Token.mk "a" 5 true) 1 2).2 rfl⟩

/-- C3: New maps a configured soft expire of 0 to the 10-second default, of -1
to 0 (disabled), keeps every other nonnegative value verbatim, and the
validity check of getToken uses exactly the normalized value as its
toleration in seconds. -/
theorem new_normalizes_softExpire :
    normalizeSoftExpire 0 = 10
  ∧ normalizeSoftExpire (-1) = 0
  ∧ (∀ s : Int, 1 ≤ s → normalizeSoftExpire s = s)
  ∧ (∀ (opts : Options) (t : Token) (now : Int)
        (fetchResult : Except String String),
      getToken (new opts) (t, none) now fetchResult =
        if t.isValid now (normalizeSoftExpire opts.softExpireInSeconds * second)
        then .ok t.value else fetchResult) := by
  refine ⟨rfl, rfl, ?_, ?_⟩
  · intro s hs
    unfold normalizeSoftExpire
    rw [if_neg (by omega), if_neg (by omega)]
  · intro opts t now fetchResult
    rfl

/-- Witness for C3 at concrete configurations. -/
theorem new_normalizes_softExpire_witness :
    normalizeSoftExpire 5 = 5 ∧
    getToken (new { softExpireInSeconds := 0 }) (zeroToken, none) 0 (.error "e") =
      (if zeroToken.isValid 0 (normalizeSoftExpire 0 * second)
       then .ok zeroToken.value else .error "e") :=
  ⟨new_normalizes_softExpire.2.2.1 5 (by decide),
   new_normalizes_softExpire.2.2.2 { softExpireInSeconds := 0 } zeroToken 0 (.error "e")⟩

/-- C7: serializing a token with ExportJSON and deserializing the result with
NewTokenFromJSON restores value, deadline and expirable, and the encoding uses
the field names value, deadline and expirable. -/
theorem token_json_roundtrip (t : Token) :
    newTokenFromJSON t.exportJSON = .ok t ∧
    t.exportJSON = Json.obj [("value", .str t.value), ("deadline", .num t.deadline),
                             ("expirable", .bool t.expirable)] :=
  ⟨newTokenFromJSON_exportJSON t, rfl⟩

/-- C9: when the resource exchange reports a transport error, Do returns that
response and error as they are, without inspecting the status and without
expiring the cache. -/
theorem do_transport_error_no_expire (tok : String) (respOpt : Option HttpResponse)
    (e : String) (expireOutcome : Option String) :
    clientDo (.ok tok) (.failure respOpt e) expireOutcome =
      ((respOpt, some e), [.sendResource])
  ∧ Action.cacheExpire ∉ (clientDo (.ok tok) (.failure respOpt e) expireOutcome).2 := by
  exact ⟨rfl, by simp [clientDo]⟩

/-- C10: a configured soft expire of at most -2 passes through New verbatim,
and with the resulting negative toleration an expirable token whose deadline
is already past still counts as valid exactly while the deadline is less than
the absolute configured value in seconds in the past. -/
theorem softExpire_negative_verbatim (s : Int) (hs : s ≤ -2) :
    normalizeSoftExpire s = s ∧
    ∀ (t : Token) (now : Int), t.expirable = true → t.deadline ≤ now →
      (t.isValid now (s * second) = true ↔ now - t.deadline < -s * second) := by
  constructor
  · unfold normalizeSoftExpire
    rw [if_neg (by omega), if_neg (by omega)]
  · intro t now hex _hpast
    simp only [Token.isValid, hex, second, Bool.not_true, Bool.false_or,
      decide_eq_true_eq]
    omega

/-- Witness for C10 at soft expire -5 and a token one second past its deadline. -/
theorem softExpire_negative_verbatim_witness :
    normalizeSoftExpire (-5) = -5 ∧
    ((Token.mk "a" 0 true).isValid second ((-5) * second) = true ↔
      second - (Token.mk "a" 0 true).deadline < -(-5) * second) :=
  ⟨(softExpire_negative_verbatim (-5) (by decide)).1,
   (softExpire_negative_verbatim (-5) (by decide)).2 (Token.mk "a" 0 true) second rfl
     (by decide)⟩

/-- C4 counterexample: on the always-fail backend, Expire followed by Get
yields the zero token, which IsValid reports as valid (even at zero
toleration), so the claim fails as stated. -/
theorem errorcache_expire_get_valid :
    (ErrorCache.get (ErrorCache.expire ()).1).1.isValid 0 0 = true := rfl

/-- C4 (amended): for every backend and every prior state, when Expire reports
success the token returned by the following Get is reported invalid by IsValid
for every toleration that does not move now plus toleration before the expiry
sentinel; on the memory backend Expire always succeeds, so the guarantee there
is unconditional. -/
theorem expire_then_get_invalid :
    (∀ (s : Token) (now tol : Int), zeroTime ≤ now + tol →
       (MemoryCache.get (MemoryCache.expire s).1).1.isValid now tol = false)
  ∧ (∀ (s : Option Json) (now tol : Int), zeroTime ≤ now + tol →
       (FileCache.expire s).2 = none →
       (FileCache.get (FileCache.expire s).1).1.isValid now tol = false)
  ∧ (∀ (s : Option Json) (now tol : Int), zeroTime ≤ now + tol →
       (RedisCache.expire s).2 = none →
       (RedisCache.get (RedisCache.expire s).1).1.isValid now tol = false)
  ∧ (∀ (s : Unit) (now tol : Int), zeroTime ≤ now + tol →
       (ErrorCache.expire s).2 = none →
       (ErrorCache.get (ErrorCache.expire s).1).1.isValid now tol = false) := by
  refine ⟨?_, ?_, ?_, ?_⟩
  · intro s now tol h
    simp only [MemoryCache.expire, MemoryCache.get, Token.expireTok, Token.isValid,
      zeroTime, Bool.not_true, Bool.false_or, decide_eq_false_iff_not]
    simp only [zeroTime] at h
    omega
  · intro s now tol h hsucc
    match s with
    | none => simp [FileCache.expire, FileCache.read] at hsucc
    | some j =>
      cases he : newTokenFromJSON j with
      | error e => simp [FileCache.expire, FileCache.read, he] at hsucc
      | ok t =>
        simp only [FileCache.expire, FileCache.read, FileCache.get, he,
          newTokenFromJSON_exportJSON, Token.expireTok, Token.isValid, zeroTime,
          Bool.not_true, Bool.false_or, decide_eq_false_iff_not]
        simp only [zeroTime] at h
        omega
  · intro s now tol h hsucc
    match s with
    | none => simp [RedisCache.expire, RedisCache.get] at hsucc
    | some j =>
      cases he : newTokenFromJSON j with
      | error e => simp [RedisCache.expire, RedisCache.get, he] at hsucc
      | ok t =>
        simp only [RedisCache.expire, RedisCache.get, RedisCache.put, he,
          newTokenFromJSON_exportJSON, Token.expireTok, Token.isValid, zeroTime,
          Bool.not_true, Bool.false_or, decide_eq_false_iff_not]
        simp only [zeroTime] at h
        omega
  · intro s now tol _h hsucc
    simp [ErrorCache.expire] at hsucc

/-- Witness for C4 (amended) on the memory backend. -/
theorem expire_then_get_invalid_witness :
    (MemoryCache.get (MemoryCache.expire zeroToken).1).1.isValid 3 4 = false :=
  expire_then_get_invalid.1 zeroToken 3 4 (by decide)

/-- C5: without a transport error, Do expires the cache exactly when the
response status matches the bad-token test of the source (status 401, the one
unauthorized code); a failing Expire is logged and not escalated; the response
is returned unchanged in every case; and the resource request is sent exactly
once, never retried. -/
theorem do_expire_iff_bad_status (tok : String) (resp : HttpResponse)
    (expireOutcome : Option String) :
    (Action.cacheExpire ∈ (clientDo (.ok tok) (.success resp) expireOutcome).2 ↔
       resp.statusCode = 401)
  ∧ (clientDo (.ok tok) (.success resp) expireOutcome).1 = (some resp, none)
  ∧ (clientDo (.ok tok) (.success resp) expireOutcome).2.count .sendResource = 1
  ∧ (∀ e, expireOutcome = some e → resp.statusCode = 401 →
       Action.logError ("cache expire error: " ++ e) ∈
         (clientDo (.ok tok) (.success resp) expireOutcome).2) := by
  unfold clientDo
  by_cases h : resp.statusCode = 401 <;> cases expireOutcome <;>
    simp [h, List.count_cons]

/-- Witness for C5 at a 401 response with a failing cache expiry. -/
theorem do_expire_iff_bad_status_witness :
    Action.cacheExpire ∈
      (clientDo (.ok "t") (.success ⟨401, "b"⟩) (some "boom")).2 ∧
    Action.logError ("cache expire error: " ++ "boom") ∈
      (clientDo (.ok "t") (.success ⟨401, "b"⟩) (some "boom")).2 :=
  ⟨(do_expire_iff_bad_status "t" ⟨401, "b"⟩ (some "boom")).1.mpr rfl,
   (do_expire_iff_bad_status "t" ⟨401, "b"⟩ (some "boom")).2.2.2 "boom" rfl rfl⟩

/-- C6: cache backend failures never fail token acquisition: a failed cache
read makes getToken return the fetch outcome instead of the cache error, and a
failed cache write after a successful fetch still returns the fresh token
value with no error, identical to the result with a successful write, with the
write failure only logged. -/
theorem cache_errors_only_logged :
    (∀ (c : Options) (t : Token) (e : String) (now : Int)
        (fetchResult : Except String String),
       getToken c (t, some e) now fetchResult = fetchResult)
  ∧ (∀ (resp : HttpResponse) (now : Int) (info : TokenInfo) (e : String),
       resp.statusCode = 200 → parseToken resp.body = .ok info →
       (fetchTokenRaw (.success resp) now (some e)).1 = .ok info.accessToken ∧
       (fetchTokenRaw (.success resp) now (some e)).1 =
         (fetchTokenRaw (.success resp) now none).1 ∧
       Action.logError ("cache put error: " ++ e) ∈
         (fetchTokenRaw (.success resp) now (some e)).2) := by
  constructor
  · intro c t e now fetchResult
    rfl
  · intro resp now info e h200 hp
    simp only [fetchTokenRaw, h200, hp]
    by_cases hz : info.expiresIn = 0 <;> simp [hz, Token.setExpiration]

/-- Witness for C6 at a concrete successful fetch with a failing cache write. -/
theorem cache_errors_only_logged_witness :
    getToken { softExpireInSeconds := 10 } (zeroToken, some "ce") 0 (.ok "abc") =
      .ok "abc" ∧
    (fetchTokenRaw (.success ⟨200, "\x7b\"access_token\":\"abc\"\x7d"⟩) 0
        (some "pe")).1 = .ok "abc" :=
  ⟨cache_errors_only_logged.1 { softExpireInSeconds := 10 } zeroToken "ce" 0 (.ok "abc"),
   (cache_errors_only_logged.2 ⟨200, "\x7b\"access_token\":\"abc\"\x7d"⟩ 0
      { accessToken := "abc", expiresIn := 0 } "pe" rfl rfl).1⟩

/-- Running any block of group arrivals from an in-flight state only extends
the waiter list; no new physical fetch starts. -/
theorem sfRun_arrivals (ids : List Nat) (l : List Nat) (n : Nat)
    (d : List (Nat × Except String String)) :
    sfRun { inFlight := some l, fetchesStarted := n, delivered := d }
        (ids.map SFEvent.arrive)
      = { inFlight := some (l ++ ids), fetchesStarted := n, delivered := d } := by
  induction ids generalizing l with
  | nil => simp [sfRun]
  | cons i rest ih =>
    simp only [List.map_cons, sfRun, List.foldl_cons, sfStep]
    have h := ih (l ++ [i])
    simp only [sfRun] at h
    rw [h]
    simp

/-- Running direct (coordination-disabled) calls starts one physical fetch per
call and delivers to each caller the result of its own fetch. -/
theorem sfRun_direct (calls : List (Nat × Except String String)) (n : Nat)
    (d : List (Nat × Except String String)) :
    sfRun { inFlight := none, fetchesStarted := n, delivered := d }
        (calls.map (fun p => SFEvent.arriveDirect p.1 p.2))
      = { inFlight := none, fetchesStarted := n + calls.length,
          delivered := d ++ calls } := by
  induction calls generalizing n d with
  | nil => simp [sfRun]
  | cons c rest ih =>
    simp only [List.map_cons, sfRun, List.foldl_cons, sfStep]
    have h := ih (n + 1) (d ++ [c])
    simp only [sfRun] at h
    rw [h]
    simp only [SFState.mk.injEq, List.append_assoc, List.singleton_append,
      List.length_cons, true_and]
    constructor
    · omega
    · trivial

/-- C8: with coordination enabled, any number of callers arriving while one
physical fetch is in flight leads to exactly one physical fetch (one when
there is at least one caller, none otherwise), and every caller receives the
result of that single fetch; with DisableSingleFlight, every caller runs its
own physical fetch and receives its own result. -/
theorem singleflight_dedup :
    (∀ (ids : List Nat) (r : Except String String),
       sfRun sfInit (ids.map SFEvent.arrive ++ [SFEvent.complete r]) =
         { inFlight := none, fetchesStarted := min ids.length 1,
           delivered := ids.map (fun i => (i, r)) })
  ∧ (∀ (calls : List (Nat × Except String String)),
       sfRun sfInit (calls.map (fun p => SFEvent.arriveDirect p.1 p.2)) =
         { inFlight := none, fetchesStarted := calls.length,
           delivered := calls }) := by
  constructor
  · intro ids r
    match ids with
    | [] => simp [sfRun, sfInit, sfStep]
    | i :: rest =>
      rw [sfRun, List.foldl_append]
      have h1 : sfRun sfInit ((i :: rest).map SFEvent.arrive) =
          { inFlight := some ([i] ++ rest), fetchesStarted := 1, delivered := [] } := by
        simp only [List.map_cons, sfRun, List.foldl_cons, sfInit, sfStep]
        have h := sfRun_arrivals rest [i] 1 []
        simp only [sfRun] at h
        exact h
      simp only [sfRun] at h1
      rw [h1]
      simp [sfStep, sfRun, min_def]
  · intro calls
    have h := sfRun_direct calls 0 []
    simpa [sfInit] using h

end OAuth2
